import Mathlib

/-!
# Verification of the adaptive scraper agent (src/agent.py)

A shallow embedding of `src/agent.py`.  The extraction logic
(`extract_products`) and the agent loop (`run_agent`) are translated
line by line; the two external collaborators — `fetch_webpage`
(the `requests` call) and `ask_ai_to_fix` (the generative-model call,
whose outcome is either a well-formed selector triple or an exception
such as a transport error, a JSON parse error, or a missing key) — are
modelled as parameters of an `Env`, since their bodies delegate to
outside libraries.  Raising an exception is modelled as returning
`none`; the agent loop's `except` handlers catch these.

CSS-selector matching is performed by BeautifulSoup, an external
library, so the parsed document is abstracted to the interface the
source uses: `Doc.select` (the result of `soup.select sel`, in
document order) and `Elem.selectOneText` (the stripped text of
`container.select_one(sel)`, `none` when no descendant matches).
-/

set_option autoImplicit false

namespace AdaptiveScraper

/-- Mirrors the Python class `Product` (fields `name`, `price`). -/
structure Product where
  name : String
  price : String
deriving DecidableEq, Repr

/-- A selector dictionary `{"container": _, "name": _, "price": _}` as
passed to `run_agent` and returned by `ask_ai_to_fix`. -/
structure Selectors where
  container : String
  name : String
  price : String
deriving DecidableEq, Repr

/-- `initial_selectors.copy()`: a fresh dictionary with the same
three entries. -/
def Selectors.copy (s : Selectors) : Selectors :=
  { container := s.container, name := s.name, price := s.price }

/-- An element found by the container selector, abstracted to the
interface the source uses on it: for each selector string, the
stripped text of the first matching descendant (if any). -/
structure Elem where
  fields : List (String × String)
deriving DecidableEq, Repr

/-- `elem.select_one(sel)` followed by `.get_text(strip=True)`:
`some text` when a descendant matches `sel`, else `none`
(the Python code stores `None` in that case). -/
def Elem.selectOneText (e : Elem) (sel : String) : Option String :=
  (e.fields.find? (fun p => p.1 == sel)).map (fun p => p.2)

/-- A parsed document, abstracted to the one operation the source
performs on it: `soup.select sel`, the list of matching elements in
document order (empty when the selector matches nothing). -/
structure Doc where
  selects : List (String × List Elem)
deriving DecidableEq, Repr

/-- `soup.select sel` on the parsed document. -/
def Doc.select (d : Doc) (sel : String) : List Elem :=
  match d.selects.find? (fun p => p.1 == sel) with
  | some p => p.2
  | none => []

/-- Python truthiness of `name` / `price` at `if name and price:`:
the value is neither `None` nor the empty string. -/
def pyTruthy : Option String → Bool
  | none => false
  | some s => !(s == "")

/-- Python truthiness of `products` at `if products:` in `run_agent`:
the value is neither `None` nor the empty list. -/
def pyListTruthy : Option (List Product) → Bool
  | none => false
  | some ps => !(ps.length == 0)

/-- `extract_products(html, container_selector, name_selector,
price_selector)` from src/agent.py, returning the pair
`(products, error)` exactly as the Python function does:
* zero containers → `(None, "No containers found with that selector")`;
* containers found, per-container both-fields filter empty →
  `(None, "Found containers but couldn't extract name/price")`;
* otherwise `(products, None)`. -/
def extract_products (html : Doc)
    (container_selector name_selector price_selector : String) :
    Option (List Product) × Option String :=
  let containers := html.select container_selector
  if containers.length == 0 then
    (none, some "No containers found with that selector")
  else
    let products := containers.filterMap (fun container =>
      let name := container.selectOneText name_selector
      let price := container.selectOneText price_selector
      if pyTruthy name && pyTruthy price then
        some { name := name.getD "", price := price.getD "" }
      else
        none)
    if products.length == 0 then
      (none, some "Found containers but couldn't extract name/price")
    else
      (some products, none)

/-- The two external collaborators of the agent loop.
`fetch url` models `fetch_webpage(url)`: `some doc` is a successful
response body (already parsed, see `Doc`), `none` is a raised
exception.  `oracle i html sel err` models the `i`-th call (0-based)
to `ask_ai_to_fix(html, sel, err)`: `some s` is a successfully parsed
selector proposal, `none` is any raised exception (transport error,
`json.loads` failure, or a missing key — the spec's
`OracleUnavailable` / `MalformedProposal`).  Indexing calls by `i`
lets a single `Env` describe collaborators whose answers differ from
call to call. -/
structure Env where
  fetch : String → Option Doc
  oracle : Nat → Doc → Selectors → Option String → Option Selectors

/-- The observable record of one `run_agent` invocation:
how often `fetch_webpage` was entered, the argument of every
`extract_products` call (document, current selectors) in order, the
argument of every `ask_ai_to_fix` call (document, failed selectors,
error message) in order, and every selector dictionary live during
the run (`dicts`): index 0 is the caller's `initial_selectors`
object, index 1 the `.copy()` made at entry, and each oracle proposal
(a fresh dictionary built by `json.loads`) is appended.  The source
contains no in-place write to any of these dictionaries, so the model
never updates a `dicts` cell — it only appends. -/
structure Trace where
  fetchCalls : Nat
  extractCalls : List (Doc × Selectors)
  oracleCalls : List (Doc × Selectors × Option String)
  dicts : List Selectors
deriving DecidableEq, Repr

/-- Outcome of one loop iteration after the document is available:
either the function returns (`done`), or the loop continues into the
next iteration with a current selector dictionary (`next`). -/
inductive StepOut where
  | done (res : Option (List Product))
  | next (current : Selectors)
deriving DecidableEq, Repr

/-- The `if html is None: html = fetch_webpage(url)` block at the top
of each loop iteration: reuse the cached document, or call the fetch
collaborator (counting the call); `none` in the first component means
the fetch raised and `run_agent` returns `None`. -/
def html_step (env : Env) (url : String) (htmlOpt : Option Doc)
    (tr : Trace) : Option Doc × Trace :=
  match htmlOpt with
  | some html => (some html, tr)
  | none => (env.fetch url, { tr with fetchCalls := tr.fetchCalls + 1 })

/-- The body of one loop iteration of `run_agent` once the document
is in hand.  `remaining` is the number of iterations left after this
one, so `attempt < max_retries` in the source is `1 ≤ remaining`
here.  Mirrors lines 127–146 of src/agent.py: call
`extract_products`; on truthy `products`, return them; otherwise, if
attempts remain, call `ask_ai_to_fix` — a successful proposal
replaces the current selectors, an exception is caught and the old
selectors are kept — and fall through to the next iteration. -/
def attempt_step (env : Env) (remaining : Nat) (current : Selectors)
    (html : Doc) (tr : Trace) : StepOut × Trace :=
  let tr1 : Trace := { tr with extractCalls := tr.extractCalls ++ [(html, current)] }
  let pr := extract_products html current.container current.name current.price
  if pyListTruthy pr.1 then
    (StepOut.done pr.1, tr1)
  else if 1 ≤ remaining then
    let proposal := env.oracle tr1.oracleCalls.length html current pr.2
    let tr2 : Trace := { tr1 with oracleCalls := tr1.oracleCalls ++ [(html, current, pr.2)] }
    match proposal with
    | some new_selectors =>
        (StepOut.next new_selectors, { tr2 with dicts := tr2.dicts ++ [new_selectors] })
    | none => (StepOut.next current, tr2)
  else
    (StepOut.next current, tr1)

/-- The `for attempt in range(1, max_retries + 1)` loop of
`run_agent`, by recursion on the number of iterations left (so the
first argument starts at `max_retries`; the iteration with fuel
`remaining + 1` is attempt `max_retries - remaining`).  Fuel 0 is the
loop having ended: the function prints and returns `None`. -/
def run_from (env : Env) (url : String) :
    Nat → Selectors → Option Doc → Trace → Option (List Product) × Trace
  | 0, _, _, tr => (none, tr)
  | remaining + 1, current, htmlOpt, tr =>
    match html_step env url htmlOpt tr with
    | (none, tr1) => (none, tr1)
    | (some html, tr1) =>
      match attempt_step env remaining current html tr1 with
      | (StepOut.done res, tr2) => (res, tr2)
      | (StepOut.next cur2, tr2) => run_from env url remaining cur2 (some html) tr2

/-- `run_agent(url, initial_selectors, max_retries)` from
src/agent.py, instrumented with a `Trace`.  The first component is
exactly the Python return value: `some products` (a non-empty list)
on success, `none` (Python `None`) on fetch failure or when the loop
exhausts its attempts.  At entry the caller's dictionary is cell 0 of
`dicts` and `current_selectors = initial_selectors.copy()` allocates
cell 1. -/
def run_agent (env : Env) (url : String) (initial_selectors : Selectors)
    (max_retries : Nat) : Option (List Product) × Trace :=
  let current_selectors := initial_selectors.copy
  run_from env url max_retries current_selectors none
    { fetchCalls := 0, extractCalls := [], oracleCalls := [],
      dicts := [initial_selectors, current_selectors] }

/-- A container passes the per-container filter of `extract_products`:
both the name and the price selector resolve to non-empty trimmed
text (the Python condition `if name and price`). -/
def bothFieldsPresent (name_selector price_selector : String) (c : Elem) : Bool :=
  pyTruthy (c.selectOneText name_selector) && pyTruthy (c.selectOneText price_selector)

/-- The `Product` built from a container that passed the filter. -/
def mkRecord (name_selector price_selector : String) (c : Elem) : Product :=
  { name := (c.selectOneText name_selector).getD "",
    price := (c.selectOneText price_selector).getD "" }

/-- Environment whose document matches no selector at all and whose
oracle always raises (always-malformed proposals). -/
def envAlwaysFail : Env :=
  { fetch := fun _ => some ⟨[]⟩, oracle := fun _ _ _ _ => none }

/-- Environment whose fetch collaborator raises. -/
def envFetchRaises : Env :=
  { fetch := fun _ => none, oracle := fun _ _ _ _ => none }

/-- A document with one container exposing a name and a price. -/
def docOneProduct : Doc :=
  ⟨[("c", [⟨[("n", "Book"), ("p", "£10")]⟩])]⟩

/-- Environment that fetches `docOneProduct`. -/
def envOneProduct : Env :=
  { fetch := fun _ => some docOneProduct, oracle := fun _ _ _ _ => none }

/-- A document with one container carrying neither name nor price. -/
def docNoFieldsA : Doc := ⟨[("c", [⟨[]⟩])]⟩

/-- A document with two containers carrying a name but no price. -/
def docNoFieldsB : Doc :=
  ⟨[("c", [⟨[("n", "X")]⟩, ⟨[("n", "Y")]⟩])]⟩

end AdaptiveScraper

namespace AdaptiveScraper

lemma pyTruthy_getD {o : Option String} (h : pyTruthy o = true) :
    o.getD "" ≠ "" := by
  cases o with
  | none => simp [pyTruthy] at h
  | some s =>
    simp only [pyTruthy, Bool.not_eq_true', beq_iff_eq] at h
    simpa using h

lemma pyListTruthy_some {o : Option (List Product)} (h : pyListTruthy o = true) :
    ∃ ps, o = some ps ∧ ps ≠ [] := by
  cases o with
  | none => simp [pyListTruthy] at h
  | some ps =>
    refine ⟨ps, rfl, ?_⟩
    simp only [pyListTruthy, Bool.not_eq_true', beq_iff_eq] at h
    intro hnil
    subst hnil
    simp at h

lemma filterMap_eq_map_filter {α β : Type} (p : α → Bool) (g : α → β)
    (f : α → Option β) (hf : ∀ a, f a = if p a then some (g a) else none)
    (l : List α) : l.filterMap f = (l.filter p).map g := by
  induction l with
  | nil => rfl
  | cons a t ih =>
    rw [List.filterMap_cons, List.filter_cons, hf a]
    cases h : p a with
    | true => simp [ih]
    | false => simp [ih]

lemma extract_filterMap (ns ps : String) (l : List Elem) :
    (l.filterMap (fun container =>
      let name := container.selectOneText ns
      let price := container.selectOneText ps
      if pyTruthy name && pyTruthy price then
        some { name := name.getD "", price := price.getD "" }
      else
        none))
    = (l.filter (bothFieldsPresent ns ps)).map (mkRecord ns ps) :=
  filterMap_eq_map_filter (bothFieldsPresent ns ps) (mkRecord ns ps) _
    (fun _ => rfl) l

/-- C4: for every document with at least one container on which both
the name and the price selector resolve to non-empty trimmed text,
`extract_products` succeeds; the returned records are exactly the
filtered containers mapped to records (so they are in document order,
there are as many as there are containers with both fields present),
and no returned record has an empty name or price. -/
theorem extract_success_spec (d : Doc) (cs ns ps : String)
    (h : ∃ c ∈ d.select cs, bothFieldsPresent ns ps c = true) :
    ∃ prods,
      extract_products d cs ns ps = (some prods, none) ∧
      prods = ((d.select cs).filter (bothFieldsPresent ns ps)).map (mkRecord ns ps) ∧
      prods.length = ((d.select cs).filter (bothFieldsPresent ns ps)).length ∧
      ∀ p ∈ prods, p.name ≠ "" ∧ p.price ≠ "" := by
  obtain ⟨c, hc, hcp⟩ := h
  have hfil : c ∈ (d.select cs).filter (bothFieldsPresent ns ps) :=
    List.mem_filter.mpr ⟨hc, hcp⟩
  have hfne : ((d.select cs).filter (bothFieldsPresent ns ps)).length ≠ 0 := by
    intro h0
    rw [List.length_eq_zero] at h0
    rw [h0] at hfil
    exact (List.not_mem_nil c) hfil
  have hcne : (d.select cs).length ≠ 0 := by
    intro h0
    rw [List.length_eq_zero] at h0
    rw [h0] at hc
    exact (List.not_mem_nil c) hc
  refine ⟨((d.select cs).filter (bothFieldsPresent ns ps)).map (mkRecord ns ps),
    ?_, rfl, List.length_map _ _, ?_⟩
  · simp only [extract_products]
    rw [extract_filterMap]
    rw [if_neg (by simpa using hcne)]
    rw [if_neg (by simpa [List.length_map] using hfne)]
  · intro p hp
    obtain ⟨c', hc', hpc⟩ := List.mem_map.mp hp
    have hb := (List.mem_filter.mp hc').2
    simp only [bothFieldsPresent, Bool.and_eq_true] at hb
    subst hpc
    exact ⟨pyTruthy_getD hb.1, pyTruthy_getD hb.2⟩

/-- C4 witness: a concrete one-container document with both fields
present, on which `extract_success_spec` applies. -/
theorem extract_success_spec_witness :
    (∃ c ∈ docOneProduct.select "c", bothFieldsPresent "n" "p" c = true) ∧
    (∃ prods,
      extract_products docOneProduct "c" "n" "p" = (some prods, none) ∧
      prods = ((docOneProduct.select "c").filter (bothFieldsPresent "n" "p")).map
        (mkRecord "n" "p") ∧
      prods.length
        = ((docOneProduct.select "c").filter (bothFieldsPresent "n" "p")).length ∧
      ∀ p ∈ prods, p.name ≠ "" ∧ p.price ≠ "") :=
  ⟨by decide, extract_success_spec docOneProduct "c" "n" "p" (by decide)⟩

/-- C5 counterexample: the `NoContainers` failure reason is one fixed
string — two calls with different (unmatched) container locators
return identical reasons, so the reason cannot carry the attempted
locator as the claim states. -/
theorem extract_noContainers_reason_counter :
    (extract_products ⟨[]⟩ "div.product" "n" "p").1 = none ∧
    (extract_products ⟨[]⟩ "div.product" "n" "p").2
      = some "No containers found with that selector" ∧
    (extract_products ⟨[]⟩ "div.product" "n" "p").2
      = (extract_products ⟨[]⟩ "span.item" "n" "p").2 :=
  ⟨rfl, rfl, rfl⟩

/-- C5 (amended): when zero elements match the container locator,
`extract_products` returns the `NoContainers` failure (never a record
sequence); its reason is the fixed string "No containers found with
that selector", which does not include the attempted locator. -/
theorem extract_noContainers (d : Doc) (cs ns ps : String)
    (h : d.select cs = []) :
    extract_products d cs ns ps =
      (none, some "No containers found with that selector") := by
  unfold extract_products
  rw [h]
  rfl

/-- C5 witness: a document with no matching elements. -/
theorem extract_noContainers_witness :
    (Doc.select ⟨[]⟩ "c" = []) ∧
    extract_products ⟨[]⟩ "c" "n" "p" =
      (none, some "No containers found with that selector") :=
  ⟨rfl, extract_noContainers ⟨[]⟩ "c" "n" "p" rfl⟩

/-- C6 counterexample: the `NoFieldsExtracted` failure reason is one
fixed string — a one-container document with both fields missing and
a two-container document where only the price is missing return
identical reasons, so the reason carries neither the container count
nor which selector matched on zero containers. -/
theorem extract_noFields_reason_counter :
    (extract_products docNoFieldsA "c" "n" "p").1 = none ∧
    (extract_products docNoFieldsA "c" "n" "p").2
      = some "Found containers but couldn't extract name/price" ∧
    (docNoFieldsA.select "c").length ≠ (docNoFieldsB.select "c").length ∧
    (extract_products docNoFieldsA "c" "n" "p").2
      = (extract_products docNoFieldsB "c" "n" "p").2 :=
  ⟨rfl, rfl, by decide, rfl⟩

/-- C6 (amended): when containers are matched but every matched
container is missing the name or the price field,
`extract_products` returns the `NoFieldsExtracted` failure; its
reason is the fixed string "Found containers but couldn't extract
name/price", which carries neither the container count nor which
selector was responsible. -/
theorem extract_noFields (d : Doc) (cs ns ps : String)
    (hne : d.select cs ≠ [])
    (hall : ∀ c ∈ d.select cs,
      c.selectOneText ns = none ∨ c.selectOneText ps = none) :
    extract_products d cs ns ps =
      (none, some "Found containers but couldn't extract name/price") := by
  have hcne : ((d.select cs).length == 0) = false := by
    simpa [List.length_eq_zero] using hne
  have hf : (d.select cs).filter (bothFieldsPresent ns ps) = [] := by
    rw [List.filter_eq_nil_iff]
    intro c hc
    rcases hall c hc with hn | hp
    · simp [bothFieldsPresent, hn, pyTruthy]
    · simp [bothFieldsPresent, hp, pyTruthy]
  simp only [extract_products]
  rw [extract_filterMap, hf]
  rw [if_neg (by simp [hcne])]
  rfl

/-- C6 witness: one matched container missing both fields. -/
theorem extract_noFields_witness :
    (docNoFieldsA.select "c" ≠ [] ∧
     ∀ c ∈ docNoFieldsA.select "c",
       c.selectOneText "n" = none ∨ c.selectOneText "p" = none) ∧
    extract_products docNoFieldsA "c" "n" "p" =
      (none, some "Found containers but couldn't extract name/price") :=
  ⟨⟨by decide, by decide⟩,
   extract_noFields docNoFieldsA "c" "n" "p" (by decide) (by decide)⟩

lemma attempt_step_spec (env : Env) (r : Nat) (cur : Selectors)
    (html : Doc) (tr : Trace) :
    ∃ ol dl,
      (attempt_step env r cur html tr).2 =
        { fetchCalls := tr.fetchCalls,
          extractCalls := tr.extractCalls ++ [(html, cur)],
          oracleCalls := tr.oracleCalls ++ ol,
          dicts := tr.dicts ++ dl } ∧
      ol.length ≤ 1 ∧ (r = 0 → ol = []) ∧ ∀ x ∈ ol, x.1 = html := by
  simp only [attempt_step]
  split
  · exact ⟨[], [], by simp, by simp, fun _ => rfl, by simp⟩
  · split
    · rename_i hr
      split
      · rename_i new_selectors heq
        refine ⟨[(html, cur,
            (extract_products html cur.container cur.name cur.price).2)],
          [new_selectors], rfl, by simp, ?_, by simp⟩
        intro h0
        omega
      · refine ⟨[(html, cur,
            (extract_products html cur.container cur.name cur.price).2)],
          [], by simp, by simp, ?_, by simp⟩
        intro h0
        omega
    · exact ⟨[], [], by simp, by simp, fun _ => rfl, by simp⟩

lemma attempt_step_done (env : Env) (r : Nat) (cur : Selectors)
    (html : Doc) (tr : Trace) (res : Option (List Product)) (tr2 : Trace)
    (h : attempt_step env r cur html tr = (StepOut.done res, tr2)) :
    ∃ ps, res = some ps ∧ ps ≠ [] := by
  simp only [attempt_step] at h
  split at h
  · rename_i htru
    have h1 := (Prod.mk.inj h).1
    injection h1 with h1
    exact pyListTruthy_some (h1 ▸ htru)
  · split at h
    · split at h
      · exact absurd (Prod.mk.inj h).1 (by simp)
      · exact absurd (Prod.mk.inj h).1 (by simp)
    · exact absurd (Prod.mk.inj h).1 (by simp)

lemma attempt_step_fail_zero (env : Env) (cur : Selectors) (html : Doc)
    (tr : Trace)
    (hfail : (extract_products html cur.container cur.name cur.price).1 = none) :
    attempt_step env 0 cur html tr =
      (StepOut.next cur,
       { tr with extractCalls := tr.extractCalls ++ [(html, cur)] }) := by
  simp [attempt_step, hfail, pyListTruthy]

lemma attempt_step_fail_oracle (env : Env) (r : Nat) (cur : Selectors)
    (html : Doc) (tr : Trace) (hr : 1 ≤ r)
    (hfail : (extract_products html cur.container cur.name cur.price).1 = none)
    (horacle : env.oracle tr.oracleCalls.length html cur
      (extract_products html cur.container cur.name cur.price).2 = none) :
    attempt_step env r cur html tr =
      (StepOut.next cur,
       { tr with
           extractCalls := tr.extractCalls ++ [(html, cur)],
           oracleCalls := tr.oracleCalls ++
             [(html, cur,
               (extract_products html cur.container cur.name cur.price).2)] }) := by
  simp [attempt_step, hfail, pyListTruthy, hr, horacle]

lemma run_from_fetch_cached (env : Env) (url : String) (doc : Doc)
    (hfetch : env.fetch url = some doc) (r : Nat) (cur : Selectors)
    (tr : Trace) :
    run_from env url (r + 1) cur none tr =
      run_from env url (r + 1) cur (some doc)
        { tr with fetchCalls := tr.fetchCalls + 1 } := by
  conv_lhs => rw [run_from]
  conv_rhs => rw [run_from]
  simp only [html_step, hfetch]

lemma run_from_fetch_fail (env : Env) (url : String)
    (hfetch : env.fetch url = none) (r : Nat) (cur : Selectors)
    (tr : Trace) :
    run_from env url (r + 1) cur none tr =
      (none, { tr with fetchCalls := tr.fetchCalls + 1 }) := by
  rw [run_from]
  simp only [html_step, hfetch]

lemma run_from_counts_some (env : Env) (url : String) :
    ∀ (r : Nat) (cur : Selectors) (html : Doc) (tr : Trace),
      ((run_from env url r cur (some html) tr).2).extractCalls.length
        ≤ tr.extractCalls.length + r ∧
      ((run_from env url r cur (some html) tr).2).oracleCalls.length
        ≤ tr.oracleCalls.length + (r - 1) := by
  intro r
  induction r with
  | zero =>
    intro cur html tr
    simp [run_from]
  | succ s ih =>
    intro cur html tr
    rw [run_from]
    simp only [html_step]
    obtain ⟨ol, dl, htr2, hol1, hol0, -⟩ := attempt_step_spec env s cur html tr
    have holen : ol.length ≤ s := by
      rcases Nat.eq_zero_or_pos s with hs | hs
      · simp [hol0 hs]
      · omega
    rcases hstep : attempt_step env s cur html tr with ⟨out, tr2⟩
    simp only [hstep] at htr2
    subst htr2
    cases out with
    | done res =>
      simp only [List.length_append, List.length_singleton]
      omega
    | next cur2 =>
      dsimp only
      obtain ⟨ih1, ih2⟩ := ih cur2 html
        { fetchCalls := tr.fetchCalls,
          extractCalls := tr.extractCalls ++ [(html, cur)],
          oracleCalls := tr.oracleCalls ++ ol,
          dicts := tr.dicts ++ dl }
      simp only [List.length_append, List.length_singleton] at ih1 ih2
      constructor
      · omega
      · omega

lemma run_from_result_some (env : Env) (url : String) (doc : Doc) :
    ∀ (r : Nat) (cur : Selectors) (tr : Trace),
      (run_from env url r cur (some doc) tr).1 = none ∨
      ∃ ps, (run_from env url r cur (some doc) tr).1 = some ps ∧ ps ≠ [] := by
  intro r
  induction r with
  | zero =>
    intro cur tr
    left
    simp [run_from]
  | succ s ih =>
    intro cur tr
    rw [run_from]
    simp only [html_step]
    rcases hstep : attempt_step env s cur doc tr with ⟨out, tr2⟩
    cases out with
    | done res =>
      dsimp only
      right
      exact attempt_step_done env s cur doc tr res tr2 hstep
    | next cur2 =>
      dsimp only
      exact ih cur2 tr2

lemma run_from_doc_inv (env : Env) (url : String) (doc : Doc) :
    ∀ (r : Nat) (cur : Selectors) (tr : Trace),
      ((run_from env url r cur (some doc) tr).2).fetchCalls = tr.fetchCalls ∧
      (∀ x ∈ ((run_from env url r cur (some doc) tr).2).extractCalls,
        x ∈ tr.extractCalls ∨ x.1 = doc) ∧
      (∀ x ∈ ((run_from env url r cur (some doc) tr).2).oracleCalls,
        x ∈ tr.oracleCalls ∨ x.1 = doc) := by
  intro r
  induction r with
  | zero =>
    intro cur tr
    simp only [run_from]
    exact ⟨trivial, fun x hx => Or.inl hx, fun x hx => Or.inl hx⟩
  | succ s ih =>
    intro cur tr
    rw [run_from]
    simp only [html_step]
    obtain ⟨ol, dl, htr2, -, -, holx⟩ := attempt_step_spec env s cur doc tr
    rcases hstep : attempt_step env s cur doc tr with ⟨out, tr2⟩
    simp only [hstep] at htr2
    subst htr2
    cases out with
    | done res =>
      dsimp only
      refine ⟨rfl, ?_, ?_⟩
      · intro x hx
        rcases List.mem_append.mp hx with h | h
        · exact Or.inl h
        · right
          cases List.mem_singleton.mp h
          rfl
      · intro x hx
        rcases List.mem_append.mp hx with h | h
        · exact Or.inl h
        · exact Or.inr (holx x h)
    | next cur2 =>
      dsimp only
      obtain ⟨ih1, ih2, ih3⟩ := ih cur2
        { fetchCalls := tr.fetchCalls,
          extractCalls := tr.extractCalls ++ [(doc, cur)],
          oracleCalls := tr.oracleCalls ++ ol,
          dicts := tr.dicts ++ dl }
      refine ⟨ih1, ?_, ?_⟩
      · intro x hx
        rcases ih2 x hx with h | h
        · rcases List.mem_append.mp h with h2 | h2
          · exact Or.inl h2
          · right
            cases List.mem_singleton.mp h2
            rfl
        · exact Or.inr h
      · intro x hx
        rcases ih3 x hx with h | h
        · rcases List.mem_append.mp h with h2 | h2
          · exact Or.inl h2
          · exact Or.inr (holx x h2)
        · exact Or.inr h

lemma run_from_dicts_some (env : Env) (url : String) (doc : Doc) :
    ∀ (r : Nat) (cur : Selectors) (tr : Trace),
      ∃ l, ((run_from env url r cur (some doc) tr).2).dicts = tr.dicts ++ l := by
  intro r
  induction r with
  | zero =>
    intro cur tr
    exact ⟨[], by simp [run_from]⟩
  | succ s ih =>
    intro cur tr
    rw [run_from]
    simp only [html_step]
    obtain ⟨ol, dl, htr2, -, -, -⟩ := attempt_step_spec env s cur doc tr
    rcases hstep : attempt_step env s cur doc tr with ⟨out, tr2⟩
    simp only [hstep] at htr2
    subst htr2
    cases out with
    | done res =>
      dsimp only
      exact ⟨dl, rfl⟩
    | next cur2 =>
      dsimp only
      obtain ⟨l, hl⟩ := ih cur2
        { fetchCalls := tr.fetchCalls,
          extractCalls := tr.extractCalls ++ [(doc, cur)],
          oracleCalls := tr.oracleCalls ++ ol,
          dicts := tr.dicts ++ dl }
      exact ⟨dl ++ l, by simpa [List.append_assoc] using hl⟩

lemma run_from_dicts (env : Env) (url : String) :
    ∀ (r : Nat) (cur : Selectors) (htmlOpt : Option Doc) (tr : Trace),
      ∃ l, ((run_from env url r cur htmlOpt tr).2).dicts = tr.dicts ++ l := by
  intro r cur htmlOpt tr
  cases r with
  | zero => exact ⟨[], by simp [run_from]⟩
  | succ s =>
    cases htmlOpt with
    | some doc => exact run_from_dicts_some env url doc (s + 1) cur tr
    | none =>
      cases hf : env.fetch url with
      | none =>
        rw [run_from_fetch_fail env url hf]
        exact ⟨[], by simp⟩
      | some doc =>
        rw [run_from_fetch_cached env url doc hf]
        exact run_from_dicts_some env url doc (s + 1) cur _

lemma run_from_all_fail (env : Env) (url : String) (doc : Doc)
    (hfail : ∀ c n p, (extract_products doc c n p).1 = none)
    (horacle : ∀ i d s e, env.oracle i d s e = none) :
    ∀ (r : Nat) (cur : Selectors) (tr : Trace),
      (run_from env url r cur (some doc) tr).1 = none ∧
      ((run_from env url r cur (some doc) tr).2).extractCalls.length
        = tr.extractCalls.length + r ∧
      ((run_from env url r cur (some doc) tr).2).oracleCalls.length
        = tr.oracleCalls.length + (r - 1) := by
  intro r
  induction r with
  | zero =>
    intro cur tr
    simp [run_from]
  | succ s ih =>
    intro cur tr
    rw [run_from]
    simp only [html_step]
    rcases Nat.eq_zero_or_pos s with hs | hs
    · subst hs
      rw [attempt_step_fail_zero env cur doc tr (hfail _ _ _)]
      dsimp only
      simp [run_from]
    · obtain ⟨s', rfl⟩ : ∃ s', s = s' + 1 := ⟨s - 1, by omega⟩
      rw [attempt_step_fail_oracle env (s' + 1) cur doc tr (by omega)
        (hfail _ _ _) (horacle _ _ _ _)]
      dsimp only
      obtain ⟨ih1, ih2, ih3⟩ := ih cur
        { tr with
            extractCalls := tr.extractCalls ++ [(doc, cur)],
            oracleCalls := tr.oracleCalls ++
              [(doc, cur, (extract_products doc cur.container cur.name cur.price).2)] }
      refine ⟨ih1, ?_, ?_⟩
      · rw [ih2]
        simp only [List.length_append, List.length_singleton]
        omega
      · rw [ih3]
        simp only [List.length_append, List.length_singleton]
        omega

/-- C3: for every run, the agent loop makes at most `max_retries`
extractor calls and at most `max_retries - 1` repair-oracle calls. -/
theorem run_agent_call_bounds (env : Env) (url : String) (init : Selectors)
    (m : Nat) :
    ((run_agent env url init m).2).extractCalls.length ≤ m ∧
    ((run_agent env url init m).2).oracleCalls.length ≤ m - 1 := by
  simp only [run_agent]
  cases m with
  | zero => simp [run_from]
  | succ k =>
    cases hf : env.fetch url with
    | none =>
      rw [run_from_fetch_fail env url hf]
      simp
    | some doc =>
      rw [run_from_fetch_cached env url doc hf]
      have h := run_from_counts_some env url (k + 1) init.copy doc
        { fetchCalls := 0 + 1, extractCalls := [], oracleCalls := [],
          dicts := [init, init.copy] }
      simpa using h

/-- C2 (amended): the caller receives either a non-empty record
sequence or the bare `None` value; the terminal failure reason is
printed but not part of the returned value. -/
theorem run_agent_none_or_nonempty (env : Env) (url : String)
    (init : Selectors) (m : Nat) :
    (run_agent env url init m).1 = none ∨
    ∃ ps, (run_agent env url init m).1 = some ps ∧ ps ≠ [] := by
  simp only [run_agent]
  cases m with
  | zero =>
    left
    simp [run_from]
  | succ k =>
    cases hf : env.fetch url with
    | none =>
      rw [run_from_fetch_fail env url hf]
      left
      rfl
    | some doc =>
      rw [run_from_fetch_cached env url doc hf]
      exact run_from_result_some env url doc (k + 1) init.copy _

/-- C2 counterexample: a run that fails because the fetch raised and
a run that fails because extraction never succeeded return the very
same caller-visible value, the bare `none` — so the returned failure
outcome carries no reason string distinguishing them, contradicting
the claim that a failed run is always reported with its reason. -/
theorem run_agent_failure_carries_no_reason :
    (run_agent envFetchRaises "u" ⟨"a", "n", "p"⟩ 3).1 = none ∧
    (run_agent envAlwaysFail "u" ⟨"a", "n", "p"⟩ 3).1 = none ∧
    (run_agent envFetchRaises "u" ⟨"a", "n", "p"⟩ 3).1
      = (run_agent envAlwaysFail "u" ⟨"a", "n", "p"⟩ 3).1 :=
  ⟨rfl, rfl, rfl⟩

/-- C7: if the fetch collaborator raises, the run returns the failure
value immediately: exactly one fetch call was made (never retried)
and the extractor and the oracle were never invoked. -/
theorem run_agent_fetch_failure (env : Env) (url : String) (init : Selectors)
    (m : Nat) (hm : 1 ≤ m) (hfetch : env.fetch url = none) :
    run_agent env url init m =
      (none, { fetchCalls := 1, extractCalls := [], oracleCalls := [],
               dicts := [init, init.copy] }) := by
  obtain ⟨k, rfl⟩ : ∃ k, m = k + 1 := ⟨m - 1, by omega⟩
  simp only [run_agent]
  rw [run_from_fetch_fail env url hfetch]

/-- C7 witness: a concrete environment whose fetch raises. -/
theorem run_agent_fetch_failure_witness :
    (1 ≤ 3 ∧ envFetchRaises.fetch "u" = none) ∧
    run_agent envFetchRaises "u" ⟨"a", "n", "p"⟩ 3 =
      (none, { fetchCalls := 1, extractCalls := [], oracleCalls := [],
               dicts := [⟨"a", "n", "p"⟩, Selectors.copy ⟨"a", "n", "p"⟩] }) :=
  ⟨⟨by decide, rfl⟩,
   run_agent_fetch_failure envFetchRaises "u" ⟨"a", "n", "p"⟩ 3 (by decide) rfl⟩

/-- C8: when the fetch succeeds, it is performed exactly once
(`fetchCalls ≤ 1` for the whole run), and every extractor call and
every oracle call of the run operates on that same cached document —
only the rule changes between attempts, never the document. -/
theorem run_agent_single_fetch_consistent (env : Env) (url : String)
    (init : Selectors) (m : Nat) (doc : Doc)
    (hfetch : env.fetch url = some doc) :
    ((run_agent env url init m).2).fetchCalls ≤ 1 ∧
    (∀ x ∈ ((run_agent env url init m).2).extractCalls, x.1 = doc) ∧
    (∀ x ∈ ((run_agent env url init m).2).oracleCalls, x.1 = doc) := by
  simp only [run_agent]
  cases m with
  | zero => simp [run_from]
  | succ k =>
    rw [run_from_fetch_cached env url doc hfetch]
    obtain ⟨h1, h2, h3⟩ := run_from_doc_inv env url doc (k + 1) init.copy
      { fetchCalls := 0 + 1, extractCalls := [], oracleCalls := [],
        dicts := [init, init.copy] }
    refine ⟨by simp [h1], ?_, ?_⟩
    · intro x hx
      rcases h2 x hx with h | h
      · simp at h
      · exact h
    · intro x hx
      rcases h3 x hx with h | h
      · simp at h
      · exact h

/-- C8 witness: a concrete environment with a successful fetch. -/
theorem run_agent_single_fetch_consistent_witness :
    (envOneProduct.fetch "u" = some docOneProduct) ∧
    (((run_agent envOneProduct "u" ⟨"a", "n", "p"⟩ 3).2).fetchCalls ≤ 1 ∧
     (∀ x ∈ ((run_agent envOneProduct "u" ⟨"a", "n", "p"⟩ 3).2).extractCalls,
       x.1 = docOneProduct) ∧
     (∀ x ∈ ((run_agent envOneProduct "u" ⟨"a", "n", "p"⟩ 3).2).oracleCalls,
       x.1 = docOneProduct)) :=
  ⟨rfl,
   run_agent_single_fetch_consistent envOneProduct "u" ⟨"a", "n", "p"⟩ 3
     docOneProduct rfl⟩

/-- C9: the caller-supplied initial selector dictionary (cell 0 of
the run's dictionary store) still holds exactly its original value
after the run: `run_agent` copies it at entry and no code path writes
into any selector dictionary, even when repair replaces the current
rule. -/
theorem run_agent_initial_selectors_intact (env : Env) (url : String)
    (init : Selectors) (m : Nat) :
    ((run_agent env url init m).2).dicts.head? = some init := by
  simp only [run_agent]
  obtain ⟨l, hl⟩ := run_from_dicts env url m init.copy none
    { fetchCalls := 0, extractCalls := [], oracleCalls := [],
      dicts := [init, init.copy] }
  rw [hl]
  rfl

/-- C10: with maximum attempts 0 the loop body never runs: the agent
returns the failure value without fetching the document and without
any extractor or oracle call. -/
theorem run_agent_zero_attempts (env : Env) (url : String) (init : Selectors) :
    run_agent env url init 0 =
      (none, { fetchCalls := 0, extractCalls := [], oracleCalls := [],
               dicts := [init, init.copy] }) := rfl

/-- C1 counterexample: with an always-failing initial rule, an oracle
that always returns a malformed proposal, and the default 3 attempts,
the run does NOT stop at attempt 1 with exactly 1 oracle call — it
keeps looping with the unchanged rule and performs 3 extractor calls
and 2 oracle calls before giving up. -/
theorem run_agent_oracle_failure_counter :
    ((run_agent envAlwaysFail "u" ⟨"a", "n", "p"⟩ 3).2).oracleCalls.length = 2 ∧
    ((run_agent envAlwaysFail "u" ⟨"a", "n", "p"⟩ 3).2).extractCalls.length = 3 ∧
    (run_agent envAlwaysFail "u" ⟨"a", "n", "p"⟩ 3).1 = none :=
  ⟨rfl, rfl, rfl⟩

/-- C1 (amended): when the oracle adapter fails after an extraction
failure, the loop catches the exception, keeps the current rule and
proceeds to the next attempt; a run whose rule always fails and whose
oracle always fails therefore terminates only after `max_retries`
attempts, returning the failure value, having made `max_retries`
extractor calls and `max_retries - 1` oracle calls. -/
theorem run_agent_oracle_failure_loops (env : Env) (url : String)
    (init : Selectors) (m : Nat) (doc : Doc) (hm : 1 ≤ m)
    (hfetch : env.fetch url = some doc)
    (hfail : ∀ c n p, (extract_products doc c n p).1 = none)
    (horacle : ∀ i d s e, env.oracle i d s e = none) :
    (run_agent env url init m).1 = none ∧
    ((run_agent env url init m).2).extractCalls.length = m ∧
    ((run_agent env url init m).2).oracleCalls.length = m - 1 := by
  obtain ⟨k, rfl⟩ : ∃ k, m = k + 1 := ⟨m - 1, by omega⟩
  simp only [run_agent]
  rw [run_from_fetch_cached env url doc hfetch]
  have h := run_from_all_fail env url doc hfail horacle (k + 1) init.copy
    { fetchCalls := 0 + 1, extractCalls := [], oracleCalls := [],
      dicts := [init, init.copy] }
  simpa using h

/-- C1 witness: the concrete always-fail scenario with 3 attempts. -/
theorem run_agent_oracle_failure_loops_witness :
    (1 ≤ 3 ∧ envAlwaysFail.fetch "u" = some ⟨[]⟩) ∧
    ((run_agent envAlwaysFail "u" ⟨"a", "n", "p"⟩ 3).1 = none ∧
     ((run_agent envAlwaysFail "u" ⟨"a", "n", "p"⟩ 3).2).extractCalls.length = 3 ∧
     ((run_agent envAlwaysFail "u" ⟨"a", "n", "p"⟩ 3).2).oracleCalls.length = 3 - 1) :=
  ⟨⟨by decide, rfl⟩,
   run_agent_oracle_failure_loops envAlwaysFail "u" ⟨"a", "n", "p"⟩ 3 ⟨[]⟩
     (by decide) rfl (fun _ _ _ => rfl) (fun _ _ _ _ => rfl)⟩

end AdaptiveScraper
